import Mathlib

/-!
Verification of the compact object-header word (`markWord.hpp`), the
narrow-klass codec (`compressedKlass.inline.hpp`) and the klass-info
lookup table (`klassInfoLUT.cpp`) of the lilliput repository, via a
shallow embedding of the C++ sources into Lean.

Machine words (`uintptr_t`, 64 bits on LP64) are modelled as `Nat`;
the C bitwise complement `~m` is modelled by `comp64 m` (xor against
the 64-bit all-ones word), and arithmetic that can wrap in C carries
an explicit `% 2 ^ 64` (or `% 2 ^ 32` for `narrowKlass`, which is
`uint32_t`).  Runtime flags that are fixed at startup
(`UseCompactObjectHeaders`) are passed as explicit `Bool` parameters.
-/

namespace Lilliput

/-- The 64-bit all-ones word. -/
def ones64 : Nat := 2 ^ 64 - 1

/-- The map `comp64 m` models the C expression `~m` on a 64-bit `uintptr_t`. -/
def comp64 (m : Nat) : Nat := m ^^^ ones64

/-- HotSpot `right_n_bits(n)`: the word with the `n` lowest bits set. -/
def right_n_bits (n : Nat) : Nat := 2 ^ n - 1

/-- HotSpot `mask_bits(x, m)` is `x & m`. -/
def mask_bits (x m : Nat) : Nat := x &&& m

namespace markWord

def age_bits : Nat := 4
def lock_bits : Nat := 2
def self_fwd_bits : Nat := 1
def max_hash_bits : Nat := 64 - age_bits - lock_bits - self_fwd_bits
def hash_bits : Nat := if max_hash_bits > 31 then 31 else max_hash_bits
def unused_gap_bits : Nat := 4
def hashctrl_bits : Nat := 2

def lock_shift : Nat := 0
def self_fwd_shift : Nat := lock_shift + lock_bits
def age_shift : Nat := self_fwd_shift + self_fwd_bits
def hash_shift : Nat := age_shift + age_bits + unused_gap_bits
def hashctrl_shift : Nat := age_shift + age_bits + unused_gap_bits

def lock_mask : Nat := right_n_bits lock_bits
def lock_mask_in_place : Nat := lock_mask <<< lock_shift
def self_fwd_mask : Nat := right_n_bits self_fwd_bits
def self_fwd_mask_in_place : Nat := self_fwd_mask <<< self_fwd_shift
def age_mask : Nat := right_n_bits age_bits
def age_mask_in_place : Nat := age_mask <<< age_shift
def hash_mask : Nat := right_n_bits hash_bits
def hash_mask_in_place : Nat := hash_mask <<< hash_shift
def hashctrl_mask : Nat := right_n_bits hashctrl_bits
def hashctrl_mask_in_place : Nat := hashctrl_mask <<< hashctrl_shift
def hashctrl_hashed_mask_in_place : Nat := 1 <<< hashctrl_shift
def hashctrl_expanded_mask_in_place : Nat := 2 <<< hashctrl_shift

def locked_value : Nat := 0
def unlocked_value : Nat := 1
def monitor_value : Nat := 2
def marked_value : Nat := 3
def forward_expanded_value : Nat := 7

def no_hash : Nat := 0
def no_hash_in_place : Nat := no_hash <<< hash_shift
def no_lock_in_place : Nat := unlocked_value

def max_age : Nat := age_mask

/-- Embeds `markWord::is_locked()`. -/
def is_locked (v : Nat) : Bool := mask_bits v lock_mask_in_place != unlocked_value

/-- Embeds `markWord::is_unlocked()`. -/
def is_unlocked (v : Nat) : Bool := mask_bits v lock_mask_in_place == unlocked_value

/-- Embeds `markWord::is_marked()`. -/
def is_marked (v : Nat) : Bool :=
  decide (v &&& (self_fwd_mask_in_place ||| lock_mask_in_place) > monitor_value)

/-- Embeds `markWord::is_forwarded()`: true for normal forwarded (0b011) and
self-forwarded (0b1xx). -/
def is_forwarded (v : Nat) : Bool :=
  decide (mask_bits v (lock_mask_in_place ||| self_fwd_mask_in_place) ≥ marked_value)

/-- Embeds `markWord::is_neutral()`. -/
def is_neutral (v : Nat) : Bool := mask_bits v lock_mask_in_place == unlocked_value

/-- Embeds `markWord::set_forward_expanded()` (its assert demands the word is
normal-forwarded, i.e. the combined self-fwd/lock bits equal `marked_value`). -/
def set_forward_expanded (v : Nat) : Nat := v ||| forward_expanded_value

/-- Embeds `markWord::is_forward_expanded()`. -/
def is_forward_expanded (v : Nat) : Bool :=
  (v &&& (lock_mask_in_place ||| self_fwd_mask_in_place)) == forward_expanded_value

/-- Embeds `markWord::is_being_inflated()`. -/
def is_being_inflated (v : Nat) : Bool := v == 0

/-- Embeds `markWord::set_unlocked()`. -/
def set_unlocked (v : Nat) : Nat := v ||| unlocked_value

/-- Embeds `markWord::has_locker()` (legacy stack locking). -/
def has_locker (v : Nat) : Bool := (v &&& lock_mask_in_place) == locked_value

/-- Embeds `markWord::is_fast_locked()` (lightweight locking); the same bit test as
`has_locker`. -/
def is_fast_locked (v : Nat) : Bool := (v &&& lock_mask_in_place) == locked_value

/-- Embeds `markWord::set_fast_locked()`. -/
def set_fast_locked (v : Nat) : Nat := v &&& comp64 lock_mask_in_place

/-- Embeds `markWord::has_monitor()`. -/
def has_monitor (v : Nat) : Bool := (v &&& lock_mask_in_place) == monitor_value

/-- Embeds `markWord::set_has_monitor()`. -/
def set_has_monitor (v : Nat) : Nat := (v &&& comp64 lock_mask_in_place) ||| monitor_value

/-- Embeds `markWord::clear_lock_bits()`. -/
def clear_lock_bits (v : Nat) : Nat :=
  v &&& comp64 (lock_mask_in_place ||| self_fwd_mask_in_place)

/-- Embeds `markWord::set_marked()`. -/
def set_marked (v : Nat) : Nat := (v &&& comp64 lock_mask_in_place) ||| marked_value

/-- Embeds `markWord::set_unmarked()`. -/
def set_unmarked (v : Nat) : Nat := (v &&& comp64 lock_mask_in_place) ||| unlocked_value

/-- Embeds `markWord::age()`. -/
def age (v : Nat) : Nat := mask_bits (v >>> age_shift) age_mask

/-- Embeds `markWord::set_age(v)` (its assert demands `(v & ~age_mask) == 0`). -/
def set_age (v a : Nat) : Nat :=
  (v &&& comp64 age_mask_in_place) ||| ((a &&& age_mask) <<< age_shift)

/-- Embeds `markWord::incr_age()`. -/
def incr_age (v : Nat) : Nat := if age v == max_age then v else set_age v (age v + 1)

/-- Embeds `markWord::hash()` (mode A only, per its assert). -/
def hash (v : Nat) : Nat := mask_bits (v >>> hash_shift) hash_mask

/-- Embeds `markWord::is_hashed()` (mode B only, per its assert). -/
def is_hashed (v : Nat) : Bool := (v &&& hashctrl_hashed_mask_in_place) != 0

/-- Embeds `markWord::is_expanded()` (mode B only, per its assert). -/
def is_expanded (v : Nat) : Bool := (v &&& hashctrl_expanded_mask_in_place) != 0

/-- Embeds `markWord::has_no_hash()`; the first argument models the process-wide
`UseCompactObjectHeaders` flag. -/
def has_no_hash (UseCompactObjectHeaders : Bool) (v : Nat) : Bool :=
  cond UseCompactObjectHeaders (!is_hashed v) (hash v == no_hash)

/-- Embeds `markWord::must_be_preserved()`. -/
def must_be_preserved (UseCompactObjectHeaders : Bool) (v : Nat) : Bool :=
  cond UseCompactObjectHeaders (!is_unlocked v)
    (!is_unlocked v || !has_no_hash UseCompactObjectHeaders v)

/-- Embeds `markWord::is_hashed_not_expanded()`. -/
def is_hashed_not_expanded (v : Nat) : Bool :=
  (v &&& hashctrl_mask_in_place) == hashctrl_hashed_mask_in_place

/-- Embeds `markWord::set_hashed_not_expanded()`. -/
def set_hashed_not_expanded (v : Nat) : Nat :=
  (v &&& comp64 hashctrl_mask_in_place) ||| hashctrl_hashed_mask_in_place

/-- Embeds `markWord::is_hashed_expanded()`. -/
def is_hashed_expanded (v : Nat) : Bool :=
  (v &&& hashctrl_mask_in_place) ==
    (hashctrl_hashed_mask_in_place ||| hashctrl_expanded_mask_in_place)

/-- Embeds `markWord::set_hashed_expanded()`. -/
def set_hashed_expanded (v : Nat) : Nat :=
  (v &&& comp64 hashctrl_mask_in_place) |||
    (hashctrl_hashed_mask_in_place ||| hashctrl_expanded_mask_in_place)

/-- Embeds `markWord::is_not_hashed_expanded()`. -/
def is_not_hashed_expanded (v : Nat) : Bool :=
  (v &&& hashctrl_mask_in_place) == hashctrl_expanded_mask_in_place

/-- Embeds `markWord::set_not_hashed_expanded()`. -/
def set_not_hashed_expanded (v : Nat) : Nat :=
  (v &&& comp64 hashctrl_mask_in_place) ||| hashctrl_expanded_mask_in_place

/-- Embeds `markWord::copy_hashctrl_from()`. -/
def copy_hashctrl_from (UseCompactObjectHeaders : Bool) (v m : Nat) : Nat :=
  cond UseCompactObjectHeaders
    ((v &&& comp64 hashctrl_mask_in_place) ||| (m &&& hashctrl_mask_in_place)) v

/-- Embeds `markWord::copy_set_hash(hash)` (mode A only, per its assert); the C
parameter is `intptr_t`, modelled on its non-negative range. -/
def copy_set_hash (v h : Nat) : Nat :=
  (v &&& comp64 hash_mask_in_place) ||| ((h &&& hash_mask) <<< hash_shift)

/-- Embeds `markWord::prototype()`. -/
def prototype (UseCompactObjectHeaders : Bool) : Nat :=
  cond UseCompactObjectHeaders no_lock_in_place (no_hash_in_place ||| no_lock_in_place)

/-- Embeds `markWord::is_self_forwarded()`: matches combined bits 100, 101, 110 but
not 111.  The C `value() + 1` wraps modulo `2 ^ 64`, which agrees with `Nat`
addition under the 3-bit mask. -/
def is_self_forwarded (v : Nat) : Bool :=
  decide (mask_bits (v + 1) (lock_mask_in_place ||| self_fwd_mask_in_place) > 4)

/-- Embeds `markWord::set_self_forwarded()`. -/
def set_self_forwarded (v : Nat) : Nat := v ||| self_fwd_mask_in_place

/-- Embeds `markWord::unset_self_forwarded()`. -/
def unset_self_forwarded (v : Nat) : Nat := v &&& comp64 self_fwd_mask_in_place

end markWord

/-- Predicate `exactlyOneB a b c d` holds when exactly one of the four booleans is true. -/
def exactlyOneB (a b c d : Bool) : Bool := a.toNat + b.toNat + c.toNat + d.toNat == 1

/-- Modelled from the spec: the hash-lifecycle (mode B) step relation over
header words.  The transition effects are the `markWord` mutators embedded
from `markWord.hpp`; the guards restricting which transitions are legal
("never-hashed → hashed-not-expanded" on first identity-hash computation,
"hashed-not-expanded → hashed-expanded" by the GC, and
"never-hashed → not-hashed-expanded" on the CDS scratch path, are the only
legal moves) come from the spec, since the calling code enforcing them is
not under src/. -/
inductive HashCtrlStep : Nat → Nat → Prop where
  | hashIt (v : Nat) : markWord.is_hashed v = false → markWord.is_expanded v = false →
      HashCtrlStep v (markWord.set_hashed_not_expanded v)
  | expandHashed (v : Nat) : markWord.is_hashed_not_expanded v = true →
      HashCtrlStep v (markWord.set_hashed_expanded v)
  | expandScratch (v : Nat) : markWord.is_hashed v = false → markWord.is_expanded v = false →
      HashCtrlStep v (markWord.set_not_hashed_expanded v)

namespace CompressedKlassPointers

/-- HotSpot `pointer_delta(k, base, 1)` on 64-bit addresses: unsigned
wrap-around subtraction. -/
def pointer_delta (k b : Nat) : Nat := (k + 2 ^ 64 - b) % 2 ^ 64

/-- Embeds `CompressedKlassPointers::is_null`. -/
def is_null (x : Nat) : Bool := x == 0

/-- Embeds `CompressedKlassPointers::decode_not_null_without_asserts(v, base, shift)`:
`(Klass*)((uintptr_t)base + ((uintptr_t)v << shift))`, with 64-bit wrap. -/
def decode_not_null_without_asserts (v b s : Nat) : Nat := (b + (v <<< s)) % 2 ^ 64

/-- Embeds `CompressedKlassPointers::decode_not_null(v, base, shift)` computes the
same value as the unchecked variant (its extra work is assertion-only). -/
def decode_not_null (v b s : Nat) : Nat := decode_not_null_without_asserts v b s

/-- Embeds `CompressedKlassPointers::encode_not_null_without_asserts(k, base, shift)`:
the result is cast to `narrowKlass` (`uint32_t`), hence the `% 2 ^ 32`. -/
def encode_not_null_without_asserts (k b s : Nat) : Nat :=
  (pointer_delta k b >>> s) % 2 ^ 32

/-- Embeds `CompressedKlassPointers::encode_not_null(k, base, shift)` computes the
same value as the unchecked variant (its extra work is assertion-only). -/
def encode_not_null (k b s : Nat) : Nat := encode_not_null_without_asserts k b s

/-- Embeds `CompressedKlassPointers::decode(v)`, with `base`/`shift` explicit. -/
def decode (v b s : Nat) : Nat := cond (is_null v) 0 (decode_not_null v b s)

/-- Embeds `CompressedKlassPointers::encode(k)`, with `base`/`shift` explicit. -/
def encode (k b s : Nat) : Nat := cond (is_null k) 0 (encode_not_null k b s)

end CompressedKlassPointers

namespace KlassInfoLUT

/-- The `Klass` kinds enumerated by the `switch` in
`KlassInfoLUT::register_klass`. -/
inductive KlassKind where
  | InstanceKlassKind
  | InstanceRefKlassKind
  | InstanceMirrorKlassKind
  | InstanceClassLoaderKlassKind
  | InstanceStackChunkKlassKind
  | TypeArrayKlassKind
  | ObjArrayKlassKind
deriving DecidableEq

/-- Numeric code of a kind, used in the packed entry. -/
def kindCode : KlassKind → Nat
  | .InstanceKlassKind => 0
  | .InstanceRefKlassKind => 1
  | .InstanceMirrorKlassKind => 2
  | .InstanceClassLoaderKlassKind => 3
  | .InstanceStackChunkKlassKind => 4
  | .TypeArrayKlassKind => 5
  | .ObjArrayKlassKind => 6

/-- The data of a type descriptor (`Klass*`) that the lookup table
summarizes: its address, structural kind, and whether per-instance
ancillary information is available in the entry. -/
structure KlassDesc where
  addr : Nat
  kind : KlassKind
  carries_infos : Bool

/-- Modelled from the spec: `KlassLUTEntry::invalid_entry`
(`klassInfoLUTEntry.hpp` is not under src/); a sentinel `uint32_t` value
distinct from every packed entry, marking unregistered slots. -/
def invalid_entry : Nat := 2 ^ 32 - 1

/-- Modelled from the spec: the packed `uint32_t` entry built by
`KlassLUTEntry(const Klass*)` (`klassInfoLUTEntry.hpp` is not under src/):
it packs the descriptor's structural kind together with the
info-availability flag. -/
def klutEntryValue (k : KlassDesc) : Nat :=
  kindCode k.kind ||| ((cond k.carries_infos 1 0) <<< 3)

/-- Modelled from the spec: the structural kind recorded in a packed entry. -/
def entry_kind (e : Nat) : Nat := e &&& 7

/-- Embeds `KlassInfoLUT::num_entries()`: one slot per possible narrow klass id,
`2 ^ bits` where `bits = narrow_klass_pointer_bits() ≤ 22`. -/
def num_entries (bits : Nat) : Nat := 2 ^ bits

/-- Embeds `KlassInfoLUT::initialize()`: allocate the table and fill every slot
with the invalid sentinel. -/
def init_lut (bits : Nat) : List Nat := List.replicate (num_entries bits) invalid_entry

/-- Embeds `KlassInfoLUT::register_klass(k)`: store the packed entry at the
descriptor's narrow klass id, computed by `CompressedKlassPointers::encode`. -/
def register_klass (st : List Nat) (b s : Nat) (k : KlassDesc) : List Nat :=
  st.set (CompressedKlassPointers.encode k.addr b s) (klutEntryValue k)

/-- Modelled from the spec: `KlassInfoLUT::at(nk)` (the lookup path;
`klassInfoLUT.inline.hpp` is not under src/): return the stored entry,
the invalid sentinel standing at every never-registered slot. -/
def lut_at (st : List Nat) (nk : Nat) : Nat := st.getD nk invalid_entry

end KlassInfoLUT

/-! ### Generic lemmas about the 64-bit word model -/

theorem testBit_ones64 (i : Nat) : ones64.testBit i = decide (i < 64) := by
  unfold ones64
  exact Nat.testBit_two_pow_sub_one 64 i

theorem testBit_comp64 (m i : Nat) :
    (comp64 m).testBit i = ((m.testBit i).xor (decide (i < 64))) := by
  simp [comp64, Nat.testBit_xor, testBit_ones64]

theorem testBit_rnb_shift (s k i : Nat) :
    (right_n_bits k <<< s).testBit i = decide (s ≤ i ∧ i < s + k) := by
  simp only [right_n_bits, Nat.testBit_shiftLeft, Nat.testBit_two_pow_sub_one]
  by_cases hs : s ≤ i <;> by_cases hk : i < s + k <;>
    simp [hs, hk, ge_iff_le] <;> omega

theorem land_rnb_eq_mod (v k : Nat) : v &&& right_n_bits k = v % 2 ^ k := by
  simp [right_n_bits, Nat.and_pow_two_sub_one_eq_mod]

/-- A clear-then-set field update leaves every bit outside both masks alone. -/
theorem update_testBit_outside (v M C i : Nat) (hi : i < 64)
    (hM : M.testBit i = false) (hC : C.testBit i = false) :
    ((v &&& comp64 M) ||| C).testBit i = v.testBit i := by
  simp [Nat.testBit_or, Nat.testBit_and, testBit_comp64, hM, hC, hi]

/-- Within the cleared mask, a clear-then-set update reads back the set bits. -/
theorem update_land_mask (v M C : Nat) (hM : M < 2 ^ 64) :
    ((v &&& comp64 M) ||| C) &&& M = C &&& M := by
  apply Nat.eq_of_testBit_eq
  intro i
  by_cases hMi : M.testBit i = true
  · have hi : i < 64 := by
      by_contra hcon
      have h2 : M < 2 ^ i :=
        lt_of_lt_of_le hM (Nat.pow_le_pow_right (by norm_num) (by omega))
      simp [Nat.testBit_lt_two_pow h2] at hMi
    simp [Nat.testBit_and, Nat.testBit_or, testBit_comp64, hMi, hi]
  · simp only [Bool.not_eq_true] at hMi
    simp [Nat.testBit_and, hMi]

/-- A clear-then-set update on one field leaves every disjoint field unchanged. -/
theorem update_land_disjoint (v M' C M : Nat) (hM : M < 2 ^ 64)
    (hdisj : M' &&& M = 0) (hC : C &&& M = 0) :
    ((v &&& comp64 M') ||| C) &&& M = v &&& M := by
  apply Nat.eq_of_testBit_eq
  intro i
  by_cases hMi : M.testBit i = true
  · have hi : i < 64 := by
      by_contra hcon
      have h2 : M < 2 ^ i :=
        lt_of_lt_of_le hM (Nat.pow_le_pow_right (by norm_num) (by omega))
      simp [Nat.testBit_lt_two_pow h2] at hMi
    have hM'i : M'.testBit i = false := by
      have h3 := congrArg (fun t => t.testBit i) hdisj
      simpa [Nat.testBit_and, hMi] using h3
    have hCi : C.testBit i = false := by
      have h3 := congrArg (fun t => t.testBit i) hC
      simpa [Nat.testBit_and, hMi] using h3
    simp [Nat.testBit_and, Nat.testBit_or, testBit_comp64, hMi, hi, hM'i, hCi]
  · simp only [Bool.not_eq_true] at hMi
    simp [Nat.testBit_and, Nat.testBit_or, hMi]

/-- Reading a shifted low-bits mask extracts the field as `v / 2^s % 2^k * 2^s`. -/
theorem land_rnb_shift_eq (v s k : Nat) :
    v &&& (right_n_bits k <<< s) = v / 2 ^ s % 2 ^ k * 2 ^ s := by
  apply Nat.eq_of_testBit_eq
  intro i
  rw [← Nat.shiftLeft_eq, ← Nat.shiftRight_eq_div_pow]
  simp only [Nat.testBit_and, Nat.testBit_shiftLeft, Nat.testBit_mod_two_pow,
    Nat.testBit_shiftRight, right_n_bits, Nat.testBit_two_pow_sub_one]
  by_cases hs : s ≤ i
  · have hss : s + (i - s) = i := by omega
    rw [hss]
    by_cases hk : i - s < k <;> simp [hs, hk, ge_iff_le, Bool.and_comm]
  · simp [show ¬ i ≥ s from hs]

theorem lor_land_self (a b : Nat) : (a ||| b) &&& b = b := by
  apply Nat.eq_of_testBit_eq
  intro i
  by_cases h : b.testBit i = true <;>
    simp only [Bool.not_eq_true] at * <;>
    simp [Nat.testBit_and, Nat.testBit_or, h]

/-- A value shifted left by `s` has no bits below `s' ≤ s`. -/
theorem shiftLeft_land_rnb_low (x s s' : Nat) (h : s' ≤ s) :
    (x <<< s) &&& right_n_bits s' = 0 := by
  apply Nat.eq_of_testBit_eq
  intro i
  simp only [Nat.testBit_and, Nat.testBit_shiftLeft, right_n_bits,
    Nat.testBit_two_pow_sub_one, Nat.zero_testBit]
  by_cases hi : i < s'
  · simp [show ¬ i ≥ s by omega]
  · simp [hi]

/-- A value below `2^s` shares no bits with a mask shifted up by `s`. -/
theorem land_shiftLeft_of_lt (C x s : Nat) (h : C < 2 ^ s) : C &&& (x <<< s) = 0 := by
  apply Nat.eq_of_testBit_eq
  intro i
  simp only [Nat.testBit_and, Nat.testBit_shiftLeft, Nat.zero_testBit]
  by_cases hi : i ≥ s
  · have h2 : C < 2 ^ i := lt_of_lt_of_le h (Nat.pow_le_pow_right (by norm_num) hi)
    simp [Nat.testBit_lt_two_pow h2]
  · simp [hi]

theorem nat_beq_eq_decide (a b : Nat) : (a == b) = decide (a = b) := by
  by_cases h : a = b <;> simp [h]

theorem nat_bne_eq_decide (a b : Nat) : (a != b) = decide (a ≠ b) := by
  by_cases h : a = b <;> simp [h]

/-! ### Concrete values of the markWord layout constants (64-bit) -/

theorem unlocked_value_eq : markWord.unlocked_value = 1 := rfl

theorem monitor_value_eq : markWord.monitor_value = 2 := rfl

theorem marked_value_eq : markWord.marked_value = 3 := rfl

theorem locked_value_eq : markWord.locked_value = 0 := rfl

theorem forward_expanded_value_eq : markWord.forward_expanded_value = 7 := rfl

theorem max_age_eq : markWord.max_age = 15 := by decide

theorem age_shift_eq : markWord.age_shift = 3 := rfl

theorem age_bits_eq : markWord.age_bits = 4 := rfl

theorem age_mask_rnb : markWord.age_mask = right_n_bits 4 := rfl

theorem hash_shift_eq : markWord.hash_shift = 11 := rfl

theorem hash_bits_eq : markWord.hash_bits = 31 := by decide

theorem hash_mask_rnb : markWord.hash_mask = right_n_bits 31 := by decide

theorem lmip_rnb : markWord.lock_mask_in_place = right_n_bits 2 := by decide

theorem lock_self_union :
    markWord.lock_mask_in_place ||| markWord.self_fwd_mask_in_place = right_n_bits 3 := by decide

theorem self_lock_union :
    markWord.self_fwd_mask_in_place ||| markWord.lock_mask_in_place = right_n_bits 3 := by decide

theorem amip_eq : markWord.age_mask_in_place = right_n_bits 4 <<< 3 := by decide

theorem hmip_eq : markWord.hash_mask_in_place = right_n_bits 31 <<< 11 := by decide

theorem hcmip_eq : markWord.hashctrl_mask_in_place = right_n_bits 2 <<< 11 := by decide

theorem hashed_mip_eq : markWord.hashctrl_hashed_mask_in_place = right_n_bits 1 <<< 11 := by
  decide

theorem expanded_mip_eq :
    markWord.hashctrl_expanded_mask_in_place = right_n_bits 1 <<< 12 := by decide

/-! ### Arithmetic characterizations of the markWord accessors -/

section MarkWordChars

open markWord

theorem land_lock_eq_mod4 (v : Nat) : v &&& lock_mask_in_place = v % 4 := by
  rw [lmip_rnb, land_rnb_eq_mod]
  norm_num

theorem land7_eq_mod8 (v : Nat) : v &&& right_n_bits 3 = v % 8 := by
  rw [land_rnb_eq_mod]
  norm_num

theorem is_unlocked_char (v : Nat) : is_unlocked v = decide (v % 8 % 4 = 1) := by
  rw [is_unlocked, mask_bits, land_lock_eq_mod4, unlocked_value_eq, nat_beq_eq_decide]
  exact decide_eq_decide.mpr (by omega)

theorem is_locked_char (v : Nat) : is_locked v = !decide (v % 8 % 4 = 1) := by
  rw [is_locked, mask_bits, land_lock_eq_mod4, unlocked_value_eq, nat_bne_eq_decide,
    decide_not]
  exact congrArg Bool.not (decide_eq_decide.mpr (by omega))

theorem has_monitor_char (v : Nat) : has_monitor v = decide (v % 8 % 4 = 2) := by
  rw [has_monitor, land_lock_eq_mod4, monitor_value_eq, nat_beq_eq_decide]
  exact decide_eq_decide.mpr (by omega)

theorem is_fast_locked_char (v : Nat) : is_fast_locked v = decide (v % 8 % 4 = 0) := by
  rw [is_fast_locked, land_lock_eq_mod4, locked_value_eq, nat_beq_eq_decide]
  exact decide_eq_decide.mpr (by omega)

theorem has_locker_char (v : Nat) : has_locker v = decide (v % 8 % 4 = 0) := by
  rw [has_locker, land_lock_eq_mod4, locked_value_eq, nat_beq_eq_decide]
  exact decide_eq_decide.mpr (by omega)

theorem is_marked_char (v : Nat) : is_marked v = decide (2 < v % 8) := by
  rw [is_marked, self_lock_union, land7_eq_mod8, monitor_value_eq]

theorem is_forwarded_char (v : Nat) : is_forwarded v = decide (3 ≤ v % 8) := by
  rw [is_forwarded, mask_bits, lock_self_union, land7_eq_mod8, marked_value_eq]

theorem is_forward_expanded_char (v : Nat) : is_forward_expanded v = decide (v % 8 = 7) := by
  rw [is_forward_expanded, lock_self_union, land7_eq_mod8, forward_expanded_value_eq,
    nat_beq_eq_decide]

theorem is_self_forwarded_char (v : Nat) :
    is_self_forwarded v = decide (4 < (v % 8 + 1) % 8) := by
  rw [is_self_forwarded, mask_bits, lock_self_union, land7_eq_mod8]
  exact decide_eq_decide.mpr (by omega)

theorem age_char (v : Nat) : age v = v / 8 % 16 := by
  rw [age, mask_bits, age_shift_eq, age_mask_rnb, Nat.shiftRight_eq_div_pow,
    land_rnb_eq_mod]
  norm_num

theorem hash_char (v : Nat) : markWord.hash v = v / 2048 % 2147483648 := by
  rw [markWord.hash, mask_bits, hash_shift_eq, hash_mask_rnb, Nat.shiftRight_eq_div_pow,
    land_rnb_eq_mod]
  norm_num

theorem is_hashed_char (v : Nat) : is_hashed v = decide (v / 2048 % 2 = 1) := by
  rw [is_hashed, hashed_mip_eq, land_rnb_shift_eq, nat_bne_eq_decide]
  refine decide_eq_decide.mpr ?_
  have e1 : (2 : Nat) ^ 11 = 2048 := by norm_num
  have e2 : (2 : Nat) ^ 1 = 2 := by norm_num
  rw [e1, e2]
  omega

theorem is_expanded_char (v : Nat) : is_expanded v = decide (2 ≤ v / 2048 % 4) := by
  rw [is_expanded, expanded_mip_eq, land_rnb_shift_eq, nat_bne_eq_decide]
  refine decide_eq_decide.mpr ?_
  have e1 : (2 : Nat) ^ 12 = 4096 := by norm_num
  have e2 : (2 : Nat) ^ 1 = 2 := by norm_num
  rw [e1, e2]
  omega

theorem is_hashed_not_expanded_char (v : Nat) :
    is_hashed_not_expanded v = decide (v / 2048 % 4 = 1) := by
  rw [is_hashed_not_expanded, hcmip_eq, land_rnb_shift_eq, nat_beq_eq_decide,
    show hashctrl_hashed_mask_in_place = 2048 from by decide]
  refine decide_eq_decide.mpr ?_
  have e1 : (2 : Nat) ^ 11 = 2048 := by norm_num
  have e2 : (2 : Nat) ^ 2 = 4 := by norm_num
  rw [e1, e2]
  omega

theorem is_not_hashed_expanded_char (v : Nat) :
    is_not_hashed_expanded v = decide (v / 2048 % 4 = 2) := by
  rw [is_not_hashed_expanded, hcmip_eq, land_rnb_shift_eq, nat_beq_eq_decide,
    show hashctrl_expanded_mask_in_place = 4096 from by decide]
  refine decide_eq_decide.mpr ?_
  have e1 : (2 : Nat) ^ 11 = 2048 := by norm_num
  have e2 : (2 : Nat) ^ 2 = 4 := by norm_num
  rw [e1, e2]
  omega

theorem is_hashed_expanded_char (v : Nat) :
    is_hashed_expanded v = decide (v / 2048 % 4 = 3) := by
  rw [is_hashed_expanded, hcmip_eq, land_rnb_shift_eq, nat_beq_eq_decide, show
    hashctrl_hashed_mask_in_place ||| hashctrl_expanded_mask_in_place = 6144 from by decide]
  refine decide_eq_decide.mpr ?_
  have e1 : (2 : Nat) ^ 11 = 2048 := by norm_num
  have e2 : (2 : Nat) ^ 2 = 4 := by norm_num
  rw [e1, e2]
  omega

end MarkWordChars

/-! ### Effects of the markWord mutators on the individual fields -/

section MarkWordEffects

open markWord

theorem ctrl_of_land_eq {x y : Nat}
    (h : x &&& hashctrl_mask_in_place = y &&& hashctrl_mask_in_place) :
    x / 2048 % 4 = y / 2048 % 4 := by
  rw [hcmip_eq, land_rnb_shift_eq, land_rnb_shift_eq] at h
  have e1 : (2 : Nat) ^ 11 = 2048 := by norm_num
  have e2 : (2 : Nat) ^ 2 = 4 := by norm_num
  rw [e1, e2] at h
  omega

theorem ctrl_const_of_land {x c : Nat} (h : x &&& hashctrl_mask_in_place = c) :
    x / 2048 % 4 * 2048 = c := by
  rw [hcmip_eq, land_rnb_shift_eq] at h
  have e1 : (2 : Nat) ^ 11 = 2048 := by norm_num
  have e2 : (2 : Nat) ^ 2 = 4 := by norm_num
  rw [e1, e2] at h
  exact h

theorem age_of_land_eq {x y : Nat}
    (h : x &&& age_mask_in_place = y &&& age_mask_in_place) : age x = age y := by
  rw [amip_eq, land_rnb_shift_eq, land_rnb_shift_eq] at h
  rw [age_char, age_char]
  have e1 : (2 : Nat) ^ 3 = 8 := by norm_num
  have e2 : (2 : Nat) ^ 4 = 16 := by norm_num
  rw [e1, e2] at h
  omega

theorem hash_of_land_eq {x y : Nat}
    (h : x &&& hash_mask_in_place = y &&& hash_mask_in_place) :
    markWord.hash x = markWord.hash y := by
  rw [hmip_eq, land_rnb_shift_eq, land_rnb_shift_eq] at h
  rw [hash_char, hash_char]
  have e1 : (2 : Nat) ^ 11 = 2048 := by norm_num
  have e2 : (2 : Nat) ^ 31 = 2147483648 := by norm_num
  rw [e1, e2] at h
  omega

theorem update_mod8 (v M' C : Nat) (hdisj : M' &&& right_n_bits 3 = 0)
    (hC : C &&& right_n_bits 3 = 0) :
    ((v &&& comp64 M') ||| C) % 8 = v % 8 := by
  have h := update_land_disjoint v M' C (right_n_bits 3) (by decide) hdisj hC
  rw [land_rnb_eq_mod, land_rnb_eq_mod] at h
  norm_num at h
  exact h

theorem set_hashed_not_expanded_ctrl (v : Nat) :
    set_hashed_not_expanded v / 2048 % 4 = 1 := by
  rw [set_hashed_not_expanded]
  have h := update_land_mask v hashctrl_mask_in_place hashctrl_hashed_mask_in_place
    (by decide)
  have h2 := ctrl_const_of_land (h.trans (by decide :
    hashctrl_hashed_mask_in_place &&& hashctrl_mask_in_place = 2048))
  omega

theorem set_hashed_expanded_ctrl (v : Nat) :
    set_hashed_expanded v / 2048 % 4 = 3 := by
  rw [set_hashed_expanded]
  have h := update_land_mask v hashctrl_mask_in_place
    (hashctrl_hashed_mask_in_place ||| hashctrl_expanded_mask_in_place) (by decide)
  have h2 := ctrl_const_of_land (h.trans (by decide :
    (hashctrl_hashed_mask_in_place ||| hashctrl_expanded_mask_in_place) &&&
      hashctrl_mask_in_place = 6144))
  omega

theorem set_not_hashed_expanded_ctrl (v : Nat) :
    set_not_hashed_expanded v / 2048 % 4 = 2 := by
  rw [set_not_hashed_expanded]
  have h := update_land_mask v hashctrl_mask_in_place hashctrl_expanded_mask_in_place
    (by decide)
  have h2 := ctrl_const_of_land (h.trans (by decide :
    hashctrl_expanded_mask_in_place &&& hashctrl_mask_in_place = 4096))
  omega

theorem set_hashed_not_expanded_mod8 (v : Nat) :
    set_hashed_not_expanded v % 8 = v % 8 := by
  rw [set_hashed_not_expanded]
  exact update_mod8 v _ _ (by decide) (by decide)

theorem set_hashed_expanded_mod8 (v : Nat) : set_hashed_expanded v % 8 = v % 8 := by
  rw [set_hashed_expanded]
  exact update_mod8 v _ _ (by decide) (by decide)

theorem set_not_hashed_expanded_mod8 (v : Nat) :
    set_not_hashed_expanded v % 8 = v % 8 := by
  rw [set_not_hashed_expanded]
  exact update_mod8 v _ _ (by decide) (by decide)

theorem set_age_mod8 (v a : Nat) : set_age v a % 8 = v % 8 := by
  rw [set_age]
  refine update_mod8 v _ _ (by decide) ?_
  rw [age_shift_eq]
  exact shiftLeft_land_rnb_low _ 3 3 (by norm_num)

theorem copy_set_hash_mod8 (v h : Nat) : copy_set_hash v h % 8 = v % 8 := by
  rw [copy_set_hash]
  refine update_mod8 v _ _ (by decide) ?_
  rw [hash_shift_eq]
  exact shiftLeft_land_rnb_low _ 11 3 (by norm_num)

theorem set_age_field_bound (a : Nat) : (a &&& age_mask) <<< age_shift < 2048 := by
  have h1 : a &&& age_mask ≤ 15 := by
    have h2 := Nat.and_le_right (n := a) (m := age_mask)
    simpa [show age_mask = 15 from by decide] using h2
  rw [age_shift_eq, Nat.shiftLeft_eq]
  have e1 : (2 : Nat) ^ 3 = 8 := by norm_num
  rw [e1]
  omega

theorem set_age_hash (v a : Nat) : markWord.hash (set_age v a) = markWord.hash v := by
  apply hash_of_land_eq
  rw [set_age]
  refine update_land_disjoint v _ _ _ (by decide) (by decide) ?_
  rw [hmip_eq]
  exact land_shiftLeft_of_lt _ _ 11 (by
    have := set_age_field_bound a
    norm_num
    omega)

theorem set_age_ctrl (v a : Nat) : set_age v a / 2048 % 4 = v / 2048 % 4 := by
  apply ctrl_of_land_eq
  rw [set_age]
  refine update_land_disjoint v _ _ _ (by decide) (by decide) ?_
  rw [hcmip_eq]
  exact land_shiftLeft_of_lt _ _ 11 (by
    have := set_age_field_bound a
    norm_num
    omega)

theorem copy_set_hash_age (v h : Nat) : age (copy_set_hash v h) = age v := by
  apply age_of_land_eq
  rw [copy_set_hash]
  refine update_land_disjoint v _ _ _ (by decide) (by decide) ?_
  rw [Nat.and_comm, hash_shift_eq]
  exact land_shiftLeft_of_lt _ _ 11 (by decide)

theorem age_set_age (v a : Nat) : age (set_age v a) = a % 16 := by
  rw [set_age]
  have h := update_land_mask v age_mask_in_place ((a &&& age_mask) <<< age_shift)
    (by decide)
  have h2 : (a &&& age_mask) <<< age_shift &&& age_mask_in_place =
      (a &&& age_mask) <<< age_shift := by
    rw [amip_eq, age_shift_eq, age_mask_rnb, land_rnb_shift_eq, land_rnb_eq_mod,
      Nat.shiftLeft_eq]
    have e1 : (2 : Nat) ^ 3 = 8 := by norm_num
    have e2 : (2 : Nat) ^ 4 = 16 := by norm_num
    rw [e1, e2]
    omega
  rw [h2] at h
  have h3 := age_of_land_eq (x := (v &&& comp64 age_mask_in_place) |||
    (a &&& age_mask) <<< age_shift) (y := (a &&& age_mask) <<< age_shift)
    (by rw [h, h2])
  rw [h3, age_char, age_mask_rnb, land_rnb_eq_mod, age_shift_eq, Nat.shiftLeft_eq]
  have e1 : (2 : Nat) ^ 3 = 8 := by norm_num
  have e2 : (2 : Nat) ^ 4 = 16 := by norm_num
  rw [e1, e2]
  omega

theorem set_age_testBit_outside (v a i : Nat) (hi : i < 64) (hout : ¬(3 ≤ i ∧ i < 7)) :
    (set_age v a).testBit i = v.testBit i := by
  rw [set_age]
  refine update_testBit_outside v _ _ i hi ?_ ?_
  · rw [amip_eq, testBit_rnb_shift]
    exact decide_eq_false (by omega)
  · rw [age_shift_eq, age_mask_rnb, Nat.testBit_shiftLeft]
    rcases Nat.lt_or_ge i 3 with h3 | h3
    · simp [show ¬ i ≥ 3 by omega]
    · rw [Nat.testBit_and, right_n_bits, Nat.testBit_two_pow_sub_one]
      simp [show ¬ (i - 3 < 4) by omega]

theorem copy_set_hash_testBit_outside (v a i : Nat) (hi : i < 64)
    (hout : ¬(11 ≤ i ∧ i < 42)) :
    (copy_set_hash v a).testBit i = v.testBit i := by
  rw [copy_set_hash]
  refine update_testBit_outside v _ _ i hi ?_ ?_
  · rw [hmip_eq, testBit_rnb_shift]
    exact decide_eq_false (by omega)
  · rw [hash_shift_eq, hash_mask_rnb, Nat.testBit_shiftLeft]
    rcases Nat.lt_or_ge i 11 with h3 | h3
    · simp [show ¬ i ≥ 11 by omega]
    · rw [Nat.testBit_and, right_n_bits, Nat.testBit_two_pow_sub_one]
      simp [show ¬ (i - 11 < 31) by omega]

end MarkWordEffects

/-! ### Claim theorems -/

section Claims

open markWord

/-- Claim C2: for all header words `h` and values `v`, `set_age h v` differs
from `h` only in the bits of the age field, and `copy_set_hash h v` only in
the bits of the hash field; in particular `set_age` leaves the lock,
self-forward and hash/hash-control bits unchanged, and `copy_set_hash`
leaves the lock, self-forward and age bits unchanged. -/
theorem header_mutator_bit_isolation (h v : Nat) :
    (∀ i, i < 64 → ¬(age_shift ≤ i ∧ i < age_shift + age_bits) →
      (set_age h v).testBit i = h.testBit i)
    ∧ (∀ i, i < 64 → ¬(hash_shift ≤ i ∧ i < hash_shift + hash_bits) →
      (copy_set_hash h v).testBit i = h.testBit i)
    ∧ is_unlocked (set_age h v) = is_unlocked h
    ∧ is_locked (set_age h v) = is_locked h
    ∧ has_monitor (set_age h v) = has_monitor h
    ∧ is_self_forwarded (set_age h v) = is_self_forwarded h
    ∧ markWord.hash (set_age h v) = markWord.hash h
    ∧ is_hashed (set_age h v) = is_hashed h
    ∧ is_expanded (set_age h v) = is_expanded h
    ∧ is_unlocked (copy_set_hash h v) = is_unlocked h
    ∧ is_locked (copy_set_hash h v) = is_locked h
    ∧ is_self_forwarded (copy_set_hash h v) = is_self_forwarded h
    ∧ age (copy_set_hash h v) = age h := by
  refine ⟨?_, ?_, ?_, ?_, ?_, ?_, ?_, ?_, ?_, ?_, ?_, ?_, ?_⟩
  · intro i hi hout
    rw [age_shift_eq, age_bits_eq] at hout
    exact set_age_testBit_outside h v i hi (by omega)
  · intro i hi hout
    rw [hash_shift_eq, hash_bits_eq] at hout
    exact copy_set_hash_testBit_outside h v i hi (by omega)
  · rw [is_unlocked_char, is_unlocked_char, set_age_mod8]
  · rw [is_locked_char, is_locked_char, set_age_mod8]
  · rw [has_monitor_char, has_monitor_char, set_age_mod8]
  · rw [is_self_forwarded_char, is_self_forwarded_char, set_age_mod8]
  · exact set_age_hash h v
  · rw [is_hashed_char, is_hashed_char]
    exact decide_eq_decide.mpr (by have := set_age_ctrl h v; omega)
  · rw [is_expanded_char, is_expanded_char, set_age_ctrl]
  · rw [is_unlocked_char, is_unlocked_char, copy_set_hash_mod8]
  · rw [is_locked_char, is_locked_char, copy_set_hash_mod8]
  · rw [is_self_forwarded_char, is_self_forwarded_char, copy_set_hash_mod8]
  · exact copy_set_hash_age h v

theorem header_mutator_bit_isolation_witness :
    (set_age 6 3).testBit 0 = (6 : Nat).testBit 0
    ∧ (copy_set_hash 6 3).testBit 0 = (6 : Nat).testBit 0 :=
  ⟨(header_mutator_bit_isolation 6 3).1 0 (by decide) (by decide),
   (header_mutator_bit_isolation 6 3).2.1 0 (by decide) (by decide)⟩

/-- Claim C6: `must_be_preserved` holds in mode A (compact headers off) iff
the header is not unlocked or has a hash assigned, and in mode B (compact
headers on) iff the header is not unlocked, independently of its hash-control
state. -/
theorem must_be_preserved_spec (v : Nat) :
    (must_be_preserved false v =
      (!is_unlocked v || decide (markWord.hash v ≠ no_hash)))
    ∧ (must_be_preserved true v = !is_unlocked v)
    ∧ must_be_preserved true (set_hashed_not_expanded v) = must_be_preserved true v
    ∧ must_be_preserved true (set_hashed_expanded v) = must_be_preserved true v
    ∧ must_be_preserved true (set_not_hashed_expanded v) = must_be_preserved true v := by
  refine ⟨?_, rfl, ?_, ?_, ?_⟩
  · rw [must_be_preserved, has_no_hash]
    simp only [Bool.cond_false]
    rw [← nat_bne_eq_decide]
    rfl
  · simp only [must_be_preserved, Bool.cond_true]
    rw [is_unlocked_char, is_unlocked_char, set_hashed_not_expanded_mod8]
  · simp only [must_be_preserved, Bool.cond_true]
    rw [is_unlocked_char, is_unlocked_char, set_hashed_expanded_mod8]
  · simp only [must_be_preserved, Bool.cond_true]
    rw [is_unlocked_char, is_unlocked_char, set_not_hashed_expanded_mod8]

theorem age_le_15 (v : Nat) : age v ≤ 15 := by
  rw [age_char]
  omega

theorem age_incr_age (v : Nat) : age (incr_age v) = min (age v + 1) 15 := by
  rw [incr_age]
  by_cases h : (age v == max_age) = true
  · rw [if_pos h]
    have h3 : age v = max_age := by simpa using h
    have h2 : age v = 15 := by rw [h3, max_age_eq]
    rw [h2]
    omega
  · rw [if_neg h]
    simp only [beq_iff_eq] at h
    rw [max_age_eq] at h
    have h3 := age_le_15 v
    rw [age_set_age]
    omega

theorem age_iterate (v n : Nat) : age (incr_age^[n] v) = min (age v + n) 15 := by
  induction n with
  | zero =>
    simp only [Function.iterate_zero, id_eq, Nat.add_zero]
    have := age_le_15 v
    omega
  | succ n ih =>
    rw [Function.iterate_succ_apply', age_incr_age, ih]
    omega

/-- Claim C7: applying `incr_age` at least `max_age` times to a header of
age 0 yields age exactly `max_age`, and the age never exceeds `max_age`
under any number of applications. -/
theorem incr_age_saturates (h k : Nat) (h0 : age h = 0) :
    age (incr_age^[max_age + k] h) = max_age
    ∧ ∀ n, age (incr_age^[n] h) ≤ max_age := by
  constructor
  · rw [age_iterate, h0, max_age_eq]
    omega
  · intro n
    rw [age_iterate, max_age_eq]
    omega

theorem incr_age_saturates_witness :
    age 1 = 0 ∧ age (incr_age^[max_age + 0] 1) = max_age :=
  ⟨by decide, (incr_age_saturates 1 0 (by decide)).1⟩

/-- Claim C8 counterexample: on the mode-A prototype header, `set_age(·, 5)`
followed by six `incr_age` applications yields age 11, not 15 as claimed
(saturation at `max_age = 15` is not reached after only six increments). -/
theorem prototype_age_six_incr_cex :
    age (incr_age^[6] (set_age (prototype false) 5)) = 11 ∧ (11 : Nat) ≠ 15 := by
  constructor
  · decide
  · decide

/-- Claim C8 (amended): a header built by the mode-A prototype is unlocked,
has no hash and has age 0; `set_age(·, 5)` followed by sixteen `incr_age`
applications yields age 15 (the 4-bit `max_age`), not 21. -/
theorem prototype_age_saturation :
    is_unlocked (prototype false) = true
    ∧ has_no_hash false (prototype false) = true
    ∧ age (prototype false) = 0
    ∧ age (incr_age^[16] (set_age (prototype false) 5)) = 15
    ∧ (15 : Nat) ≠ 21 := by
  refine ⟨by decide, by decide, by decide, by decide, by decide⟩

/-- Claim C3 counterexample: the header word 2 (a monitor header, not the
all-zero inflating value) satisfies both `is_locked` and `has_monitor`, so
"exactly one of is_unlocked/is_locked/has_monitor/is_marked" fails. -/
theorem lock_state_exclusivity_cex :
    exactlyOneB (is_unlocked 2) (is_locked 2) (has_monitor 2) (is_marked 2) = false
    ∧ (2 : Nat) ≠ 0
    ∧ is_locked 2 = true ∧ has_monitor 2 = true := by
  refine ⟨by decide, by decide, by decide, by decide⟩

/-- Claim C3 (amended): for every header word, exactly one of `is_unlocked`,
the locked bit pattern (`is_fast_locked`/`has_locker`), `has_monitor` and
`is_marked` holds, once each of the first three is restricted to non-marked
words (`is_marked` is true whenever the self-forward bit is set, whatever
the lock bits); `is_locked` itself is the complement of `is_unlocked` (and
so overlaps `has_monitor`/`is_marked`); the all-zero inflating value
reports `is_being_inflated` and is distinguishable from `is_unlocked`. -/
theorem lock_state_partition (v : Nat) :
    exactlyOneB (is_unlocked v && !is_marked v) (is_fast_locked v && !is_marked v)
      (has_monitor v && !is_marked v) (is_marked v) = true
    ∧ is_locked v = !is_unlocked v
    ∧ is_being_inflated 0 = true
    ∧ is_unlocked 0 = false
    ∧ (is_being_inflated v = true → is_unlocked v = false) := by
  refine ⟨?_, ?_, by decide, by decide, ?_⟩
  · rw [is_unlocked_char, is_fast_locked_char, has_monitor_char, is_marked_char]
    have h8 : v % 8 < 8 := Nat.mod_lt _ (by norm_num)
    generalize hg : v % 8 = m
    rw [hg] at h8
    interval_cases m <;> decide
  · rw [is_locked_char, is_unlocked_char]
  · intro hz
    have hv : v = 0 := by simpa [is_being_inflated] using hz
    rw [hv]
    decide

theorem lock_state_partition_witness :
    is_being_inflated 0 = true ∧ is_unlocked 0 = false :=
  ⟨by decide, (lock_state_partition 0).2.2.2.2 (by decide)⟩

/-- Claim C10: `is_self_forwarded` is true exactly when the combined
self-forward and lock bits are 100, 101 or 110 (and false at 111, the
forward-expanded pattern); for any header whose combined bits equal the
plain-marked pattern 011 (the precondition of `set_forward_expanded`),
the updated word is forward-expanded and forwarded but not self-forwarded,
even though its self-forward bit is set. -/
theorem self_forwarded_vs_forward_expanded (v h : Nat) :
    (is_self_forwarded v = true ↔
      (mask_bits v (lock_mask_in_place ||| self_fwd_mask_in_place) = 4
       ∨ mask_bits v (lock_mask_in_place ||| self_fwd_mask_in_place) = 5
       ∨ mask_bits v (lock_mask_in_place ||| self_fwd_mask_in_place) = 6))
    ∧ (mask_bits h (lock_mask_in_place ||| self_fwd_mask_in_place) = marked_value →
        is_forward_expanded (set_forward_expanded h) = true
        ∧ is_forwarded (set_forward_expanded h) = true
        ∧ is_self_forwarded (set_forward_expanded h) = false
        ∧ (set_forward_expanded h).testBit self_fwd_shift = true) := by
  constructor
  · rw [is_self_forwarded_char, mask_bits, lock_self_union, land7_eq_mod8,
      decide_eq_true_eq]
    have h8 : v % 8 < 8 := Nat.mod_lt _ (by norm_num)
    omega
  · intro hp
    have h7 : set_forward_expanded h % 8 = 7 := by
      rw [set_forward_expanded, show forward_expanded_value = right_n_bits 3 from by decide,
        ← land7_eq_mod8, lor_land_self]
      decide
    refine ⟨?_, ?_, ?_, ?_⟩
    · rw [is_forward_expanded_char, h7]
      decide
    · rw [is_forwarded_char, h7]
      decide
    · rw [is_self_forwarded_char, h7]
      decide
    · rw [set_forward_expanded, show self_fwd_shift = 2 from rfl]
      simp [Nat.testBit_or, show forward_expanded_value = 7 from rfl]
      exact Or.inr (by decide)

theorem self_forwarded_vs_forward_expanded_witness :
    is_forward_expanded (set_forward_expanded 3) = true
    ∧ is_self_forwarded (set_forward_expanded 3) = false :=
  ⟨((self_forwarded_vs_forward_expanded 0 3).2 (by decide)).1,
   ((self_forwarded_vs_forward_expanded 0 3).2 (by decide)).2.2.1⟩

end Claims

/-! ### The narrow-klass codec claims -/

section CodecClaims

open CompressedKlassPointers

theorem pointer_delta_eq (a b : Nat) (hb : b ≤ a) (ha : a < 2 ^ 64) :
    pointer_delta a b = a - b := by
  rw [pointer_delta]
  have e : (2 : Nat) ^ 64 = 18446744073709551616 := by norm_num
  rw [e] at ha ⊢
  omega

theorem delta_div_lt (a b s bits : Nat) (hbits : bits ≤ 22)
    (hhi : a < b + 2 ^ (bits + s)) : (a - b) / 2 ^ s < 2 ^ 32 := by
  have hq : (a - b) / 2 ^ s < 2 ^ bits := by
    apply Nat.div_lt_of_lt_mul
    have e : 2 ^ (bits + s) = 2 ^ s * 2 ^ bits := by rw [pow_add, Nat.mul_comm]
    have hg : 0 < 2 ^ s * 2 ^ bits := Nat.mul_pos (Nat.two_pow_pos s) (Nat.two_pow_pos bits)
    omega
  exact lt_of_lt_of_le hq (Nat.pow_le_pow_right (by norm_num) (by omega))

/-- Claim C1 counterexample: with an unaligned base (`b = 4`, `s = 3`), the
address `a = 8` satisfies the claimed alignment of `a` and the range
condition, yet decoding the encoding of `a` yields `4`, not `a`. -/
theorem codec_roundtrip_cex :
    (8 : Nat) % max 8 (2 ^ 3) = 0
    ∧ (4 : Nat) ≤ 8 ∧ (8 : Nat) < 4 + 2 ^ (22 + 3)
    ∧ decode_not_null (encode_not_null 8 4 3) 4 3 = 4
    ∧ (4 : Nat) ≠ 8 := by
  refine ⟨by decide, by decide, by decide, by decide, by decide⟩

/-- Claim C1 (amended): if `a` is aligned to `max(8, 2^s)` bytes, the base
`b` is aligned to `2^s` bytes, and `b ≤ a < b + 2^(bits+s)` with
`bits ≤ 22` (the configured `narrow_klass_pointer_bits`), then decoding the
encoding of `a` (with the same base and shift) yields exactly `a`. -/
theorem codec_roundtrip (a b s bits : Nat) (hbits : bits ≤ 22)
    (halign : a % max 8 (2 ^ s) = 0) (hbase : b % 2 ^ s = 0)
    (hlo : b ≤ a) (hhi : a < b + 2 ^ (bits + s)) (ha : a < 2 ^ 64) :
    decode_not_null (encode_not_null a b s) b s = a := by
  have hdvd_a : 2 ^ s ∣ a := by
    have h1 : 2 ^ s ∣ max 8 (2 ^ s) := by
      rcases Nat.le_total (2 ^ s) 8 with h | h
      · rw [Nat.max_eq_left h]
        have hs : s ≤ 3 := by
          by_contra hs
          have h2 : (2 : Nat) ^ 4 ≤ 2 ^ s := Nat.pow_le_pow_right (by norm_num) (by omega)
          have e : (2 : Nat) ^ 4 = 16 := by norm_num
          rw [e] at h2
          omega
        exact (Nat.pow_dvd_pow 2 hs).trans (by norm_num)
      · rw [Nat.max_eq_right h]
    exact h1.trans (Nat.dvd_of_mod_eq_zero halign)
  have hdvd : 2 ^ s ∣ (a - b) := Nat.dvd_sub' hdvd_a (Nat.dvd_of_mod_eq_zero hbase)
  rw [decode_not_null, decode_not_null_without_asserts, encode_not_null,
    encode_not_null_without_asserts, pointer_delta_eq a b hlo ha,
    Nat.shiftRight_eq_div_pow, Nat.mod_eq_of_lt (delta_div_lt a b s bits hbits hhi),
    Nat.shiftLeft_eq, Nat.div_mul_cancel hdvd, Nat.add_sub_cancel' hlo]
  exact Nat.mod_eq_of_lt ha

theorem codec_roundtrip_witness :
    decode_not_null (encode_not_null 4096 1024 3) 1024 3 = 4096 :=
  codec_roundtrip 4096 1024 3 22 (by decide) (by decide) (by decide) (by decide)
    (by decide) (by decide)

/-- Claim C9 counterexample: encoding the real (non-null, aligned) address
`a = 4096` against base `b = 4096` produces the reserved narrow value 0. -/
theorem zero_sentinel_cex :
    encode 4096 4096 3 = 0 ∧ (4096 : Nat) ≠ 0 := ⟨by decide, by decide⟩

/-- Claim C9 (amended): for every base and shift, `encode` maps the null
address to the narrow value 0 and `decode` maps 0 back to null; and
`encode` never produces 0 for a non-null address that lies at or above
`base + 2^shift` (and within the encoding range) — the address equal to
the base itself, however, encodes to 0. -/
theorem zero_sentinel (b s a bits : Nat) (hbits : bits ≤ 22)
    (hlo : b + 2 ^ s ≤ a) (hhi : a < b + 2 ^ (bits + s)) (ha : a < 2 ^ 64) :
    encode 0 b s = 0 ∧ decode 0 b s = 0 ∧ encode a b s ≠ 0 := by
  refine ⟨rfl, rfl, ?_⟩
  have hs1 : 1 ≤ (2 : Nat) ^ s := Nat.one_le_two_pow
  have ha0 : a ≠ 0 := by omega
  have he : (a == 0) = false := by simpa using ha0
  rw [encode, is_null, he]
  simp only [Bool.cond_false]
  rw [encode_not_null, encode_not_null_without_asserts,
    pointer_delta_eq a b (by omega) ha, Nat.shiftRight_eq_div_pow,
    Nat.mod_eq_of_lt (delta_div_lt a b s bits hbits hhi)]
  have h1 : 1 ≤ (a - b) / 2 ^ s := (Nat.one_le_div_iff (by omega)).mpr (by omega)
  omega

theorem zero_sentinel_witness :
    encode 0 1024 3 = 0 ∧ decode 0 1024 3 = 0 ∧ encode 1032 1024 3 ≠ 0 :=
  zero_sentinel 1024 3 1032 22 (by decide) (by decide) (by decide) (by decide)

end CodecClaims

/-! ### The hash-lifecycle claim -/

section HashLifecycle

open markWord

/-- Claim C4: every legal hash-lifecycle step goes never-hashed →
hashed-not-expanded, hashed-not-expanded → hashed-expanded, or never-hashed →
not-hashed-expanded; consequently, starting from a never-hashed header the
only reachable hash-control states are along the chains
never-hashed → hashed-not-expanded → hashed-expanded and
never-hashed → not-hashed-expanded, and every path reaching hashed-expanded
passes through a hashed-not-expanded word. -/
theorem hash_lifecycle_monotone :
    (∀ v w, HashCtrlStep v w →
      ((is_hashed v = false ∧ is_expanded v = false) ∧ is_hashed_not_expanded w = true)
      ∨ (is_hashed_not_expanded v = true ∧ is_hashed_expanded w = true)
      ∨ ((is_hashed v = false ∧ is_expanded v = false) ∧ is_not_hashed_expanded w = true))
    ∧ (∀ v w, Relation.ReflTransGen HashCtrlStep v w →
        is_hashed v = false → is_expanded v = false →
        (w = v ∨ is_hashed_not_expanded w = true ∨ is_not_hashed_expanded w = true
          ∨ (is_hashed_expanded w = true
             ∧ ∃ u, Relation.ReflTransGen HashCtrlStep v u
                 ∧ is_hashed_not_expanded u = true
                 ∧ Relation.ReflTransGen HashCtrlStep u w))) := by
  constructor
  · intro v w hstep
    cases hstep with
    | hashIt h1 h2 =>
      left
      refine ⟨⟨h1, h2⟩, ?_⟩
      rw [is_hashed_not_expanded_char, decide_eq_true_eq]
      exact set_hashed_not_expanded_ctrl v
    | expandHashed h1 =>
      right; left
      refine ⟨h1, ?_⟩
      rw [is_hashed_expanded_char, decide_eq_true_eq]
      exact set_hashed_expanded_ctrl v
    | expandScratch h1 h2 =>
      right; right
      refine ⟨⟨h1, h2⟩, ?_⟩
      rw [is_not_hashed_expanded_char, decide_eq_true_eq]
      exact set_not_hashed_expanded_ctrl v
  · intro v w hreach h1 h2
    induction hreach with
    | refl => left; rfl
    | @tail b c hab hstep ih =>
      cases hstep with
      | hashIt hb1 hb2 =>
        right; left
        rw [is_hashed_not_expanded_char, decide_eq_true_eq]
        exact set_hashed_not_expanded_ctrl b
      | expandHashed hb =>
        right; right; right
        constructor
        · rw [is_hashed_expanded_char, decide_eq_true_eq]
          exact set_hashed_expanded_ctrl b
        · exact ⟨b, hab, hb,
            Relation.ReflTransGen.single (HashCtrlStep.expandHashed b hb)⟩
      | expandScratch hb1 hb2 =>
        right; right; left
        rw [is_not_hashed_expanded_char, decide_eq_true_eq]
        exact set_not_hashed_expanded_ctrl b

theorem hash_lifecycle_monotone_witness :
    set_hashed_expanded (set_hashed_not_expanded 0) = 0
    ∨ is_hashed_not_expanded (set_hashed_expanded (set_hashed_not_expanded 0)) = true
    ∨ is_not_hashed_expanded (set_hashed_expanded (set_hashed_not_expanded 0)) = true
    ∨ (is_hashed_expanded (set_hashed_expanded (set_hashed_not_expanded 0)) = true
       ∧ ∃ u, Relation.ReflTransGen HashCtrlStep 0 u ∧ is_hashed_not_expanded u = true
           ∧ Relation.ReflTransGen HashCtrlStep u
               (set_hashed_expanded (set_hashed_not_expanded 0))) :=
  hash_lifecycle_monotone.2 0 _
    (Relation.ReflTransGen.tail
      (Relation.ReflTransGen.single (HashCtrlStep.hashIt 0 (by decide) (by decide)))
      (HashCtrlStep.expandHashed (set_hashed_not_expanded 0) (by decide)))
    (by decide) (by decide)

end HashLifecycle

/-! ### The lookup-table claim -/

section LutClaims

open KlassInfoLUT

theorem getD_set_self_list (l : List Nat) (i : Nat) (x d : Nat) (h : i < l.length) :
    (l.set i x).getD i d = x := by
  induction l generalizing i with
  | nil => simp at h
  | cons a t ih =>
    cases i with
    | zero => rfl
    | succ n =>
      simp only [List.set, List.getD_cons_succ]
      exact ih n (by simpa using h)

theorem getD_set_ne_list (l : List Nat) (i j : Nat) (x d : Nat) (h : i ≠ j) :
    (l.set i x).getD j d = l.getD j d := by
  induction l generalizing i j with
  | nil => rfl
  | cons a t ih =>
    cases i with
    | zero =>
      cases j with
      | zero => exact absurd rfl h
      | succ m => rfl
    | succ n =>
      cases j with
      | zero => rfl
      | succ m =>
        simp only [List.set, List.getD_cons_succ]
        exact ih n m (by omega)

theorem getD_replicate_list (n i d : Nat) : (List.replicate n d).getD i d = d := by
  induction n generalizing i with
  | zero => rfl
  | succ m ih =>
    cases i with
    | zero => rfl
    | succ j =>
      simp only [List.replicate, List.getD_cons_succ]
      exact ih j

theorem entry_kind_klut (k : KlassDesc) : entry_kind (klutEntryValue k) = kindCode k.kind := by
  obtain ⟨a, kind, ci⟩ := k
  cases kind <;> cases ci <;>
    simp only [klutEntryValue, entry_kind, kindCode] <;> decide

/-- Claim C5: after `initialize` fills every slot of the `2^bits`-entry table
with the invalid sentinel, registering a type descriptor whose address
encodes to narrow reference `r` and then looking up `r` returns an entry
whose structural kind equals the descriptor's kind, and looking up any slot
that was never registered returns the invalid sentinel. -/
theorem klut_register_lookup (bits b s : Nat) (k : KlassDesc)
    (hr : CompressedKlassPointers.encode k.addr b s < num_entries bits) :
    entry_kind (lut_at (register_klass (init_lut bits) b s k)
        (CompressedKlassPointers.encode k.addr b s)) = kindCode k.kind
    ∧ ∀ r, r ≠ CompressedKlassPointers.encode k.addr b s →
        lut_at (register_klass (init_lut bits) b s k) r = invalid_entry := by
  constructor
  · rw [register_klass, lut_at, getD_set_self_list]
    · exact entry_kind_klut k
    · rw [init_lut, List.length_replicate]
      exact hr
  · intro r hne
    rw [register_klass, lut_at, getD_set_ne_list _ _ _ _ _ (fun he => hne he.symm),
      init_lut, getD_replicate_list]

theorem klut_register_lookup_witness :
    entry_kind (lut_at (register_klass (init_lut 2) 8 3
        ⟨16, KlassKind.TypeArrayKlassKind, false⟩)
        (CompressedKlassPointers.encode 16 8 3)) =
      kindCode KlassKind.TypeArrayKlassKind
    ∧ lut_at (register_klass (init_lut 2) 8 3
        ⟨16, KlassKind.TypeArrayKlassKind, false⟩) 3 = invalid_entry :=
  ⟨(klut_register_lookup 2 8 3 ⟨16, KlassKind.TypeArrayKlassKind, false⟩ (by decide)).1,
   (klut_register_lookup 2 8 3 ⟨16, KlassKind.TypeArrayKlassKind, false⟩ (by decide)).2
     3 (by decide)⟩

end LutClaims

end Lilliput
